import Mathlib

/-!
Verification development for the vector similarity search layer of the
Mobius repository: `app/db/vector_ops.py` (batch embedding insertion,
plain similarity search, filtered similarity search) over the schema of
`app/db/models.py` / `alembic/versions/001_initial_schema.py`.

Modelling conventions:
* floating-point values are rationals (`ℚ`), UUIDs are naturals;
* JSONB metadata is a key/value list whose values are kept in their
  `astext` form (the only form the code compares against);
* the pgvector distance operators `<=>` / `<->` are evaluated inside the
  database engine, which the repository treats as an external black box,
  so both search operations are parametrised by a distance function;
* the async session plus the backing store is an explicit `DBState`
  (committed rows, flushed-but-uncommitted rows, a commit counter and an
  id allocator); Python exceptions become `Except` errors.
-/

namespace VectorOps

/-- JSONB metadata map: keys paired with `astext`-rendered values. -/
abbrev MetaMap := List (String × String)

/-- A row of the `documents` table (the columns the search layer reads:
`id`, `project_id`, `file_path`, `file_type`). -/
structure Document where
  id : Nat
  project_id : Nat
  file_path : String
  file_type : String
deriving DecidableEq

/-- A row of the `embeddings` table (model `Embedding` in
`app/db/models.py`). -/
structure Embedding where
  id : Nat
  document_id : Nat
  chunk_index : Nat
  chunk_text : String
  embedding : List ℚ
  embedding_metadata : Option MetaMap
deriving DecidableEq

/-- One element of `embeddings_data` passed to `insert_embeddings`:
`document_id`, `chunk_index`, `chunk_text`, `embedding`, optional
`metadata`. -/
structure EmbeddingData where
  document_id : Nat
  chunk_index : Nat
  chunk_text : String
  embedding : List ℚ
  metadata : Option MetaMap
deriving DecidableEq

/-- `SimilarityMetric = Literal["cosine", "l2"]`. -/
inductive SimilarityMetric where
  | cosine
  | l2
deriving DecidableEq

/-- The tables the search queries read. -/
structure Corpus where
  documents : List Document
  embeddings : List Embedding
deriving DecidableEq

/-- `FROM embeddings e JOIN documents d ON e.document_id = d.id`. -/
def joinDocs (c : Corpus) : List (Embedding × Document) :=
  c.embeddings.flatMap fun e =>
    (c.documents.filter fun d => d.id == e.document_id).map fun d => (e, d)

/-- The pgvector distance operator chosen for a metric (`<=>` for cosine,
`<->` for L2).  Distance computation happens inside the database engine,
an external collaborator, so the model takes it as a parameter. -/
abbrev DistanceFn := SimilarityMetric → List ℚ → List ℚ → ℚ

/-- Distance-to-similarity conversion used by both search functions:
`similarity = 1 - distance` for cosine, `similarity = 1 / (1 + distance)`
for L2 (vector_ops.py lines 160-165 and 253-257). -/
def toSimilarity : SimilarityMetric → ℚ → ℚ
  | .cosine, d => 1 - d
  | .l2, d => 1 / (1 + d)

/-- A candidate row of either search query: the embedding row, its joined
document row, and the engine-computed distance column. -/
abbrev ScoredRow := Embedding × Document × ℚ

/-- The joined rows together with the selected
`e.embedding <op> :query_vector AS distance` column. -/
def scoredRows (dist : DistanceFn) (c : Corpus) (metric : SimilarityMetric)
    (query_vector : List ℚ) : List ScoredRow :=
  (joinDocs c).map fun ed => (ed.1, ed.2, dist metric ed.1.embedding query_vector)

/-- Insert an element into a list sorted by `key`, after any element with
an equal key: models `ORDER BY distance ASC` with ties left in the
storage engine's natural row order. -/
def insertByKey {α : Type} (key : α → ℚ) (a : α) : List α → List α
  | [] => [a]
  | b :: l => if key a < key b then a :: b :: l else b :: insertByKey key a l

/-- Stable sort by a rational key (`ORDER BY distance ASC`). -/
def sortByKey {α : Type} (key : α → ℚ) : List α → List α
  | [] => []
  | b :: l => insertByKey key b (sortByKey key l)

/-- The `ValueError` raised for a query vector whose length is not 1536. -/
inductive SearchError where
  | invalidDimension (got : Nat)
deriving DecidableEq

/-- One result dictionary of `similarity_search` (lines 167-179). -/
structure SearchHit where
  id : Nat
  document_id : Nat
  project_id : Nat
  file_path : String
  chunk_index : Nat
  chunk_text : String
  metadata : Option MetaMap
  similarity : ℚ
  distance : ℚ
deriving DecidableEq

/-- Formatting of one fetched row into a result dictionary of
`similarity_search`. -/
def mkSearchHit (metric : SimilarityMetric) (r : ScoredRow) : SearchHit :=
  { id := r.1.id
    document_id := r.1.document_id
    project_id := r.2.1.project_id
    file_path := r.2.1.file_path
    chunk_index := r.1.chunk_index
    chunk_text := r.1.chunk_text
    metadata := r.1.embedding_metadata
    similarity := toSimilarity metric r.2.2
    distance := r.2.2 }

/-- `similarity_search(session, query_vector, limit, metric,
similarity_threshold)` (vector_ops.py lines 95-194): validate the query
dimension, select the joined rows with their distance column, optionally
apply the `WHERE e.embedding <op> :query_vector < :threshold` clause —
the threshold is tested for Python truthiness (`if similarity_threshold:`),
so both `None` and `0.0` skip the clause — then `ORDER BY distance ASC
LIMIT :limit` and convert each distance to a similarity. -/
def similarity_search (dist : DistanceFn) (c : Corpus) (query_vector : List ℚ)
    (limit : Nat) (metric : SimilarityMetric) (similarity_threshold : Option ℚ) :
    Except SearchError (List SearchHit) :=
  if query_vector.length ≠ 1536 then
    .error (.invalidDimension query_vector.length)
  else
    let rows := scoredRows dist c metric query_vector
    let rows :=
      match similarity_threshold with
      | none => rows
      | some t => if t ≠ 0 then rows.filter (fun r => r.2.2 < t) else rows
    .ok (((sortByKey (fun r => r.2.2) rows).take limit).map (mkSearchHit metric))

/-- Python truthiness of the `project_id` argument (`if project_id:`);
a UUID object is always truthy. -/
def projectFilterActive : Option Nat → Bool
  | none => false
  | some _ => true

/-- Python truthiness of the `file_types` argument (`if file_types:`);
an empty list is falsy. -/
def fileTypesActive : Option (List String) → Bool
  | none => false
  | some l => !l.isEmpty

/-- Python truthiness of the `metadata_filters` argument
(`if metadata_filters:`); an empty dict is falsy. -/
def metadataFiltersActive : Option MetaMap → Bool
  | none => false
  | some m => !m.isEmpty

/-- `Embedding.embedding_metadata[key].astext`: `none` when the metadata
is NULL or the key is absent. -/
def metaLookup (md : Option MetaMap) (k : String) : Option String :=
  md.bind fun m => (m.find? fun p => p.1 == k).map Prod.snd

/-- `filters` list of `vector_search_with_filters` (lines 233-240),
combined with `and_(*filters)`: an argument that is Python-falsy
contributes no condition. -/
def filterPred (project_id : Option Nat) (file_types : Option (List String))
    (metadata_filters : Option MetaMap) (e : Embedding) (d : Document) : Bool :=
  (match project_id with
   | none => true
   | some p => d.project_id == p) &&
  (match file_types with
   | none => true
   | some fts => if fts.isEmpty then true else fts.contains d.file_type) &&
  (match metadata_filters with
   | none => true
   | some m => if m.isEmpty then true
               else m.all fun kv => metaLookup e.embedding_metadata kv.1 == some kv.2)

/-- `if filters:` — the filter list is nonempty iff some argument is
Python-truthy. -/
def filtersActive (project_id : Option Nat) (file_types : Option (List String))
    (metadata_filters : Option MetaMap) : Bool :=
  projectFilterActive project_id || fileTypesActive file_types ||
    metadataFiltersActive metadata_filters

/-- One result dictionary of `vector_search_with_filters` (lines 259-272);
it additionally carries the document's `file_type`. -/
structure FilteredHit where
  id : Nat
  document_id : Nat
  project_id : Nat
  file_path : String
  file_type : String
  chunk_index : Nat
  chunk_text : String
  metadata : Option MetaMap
  similarity : ℚ
  distance : ℚ
deriving DecidableEq

/-- Formatting of one fetched row into a result dictionary of
`vector_search_with_filters`. -/
def mkFilteredHit (metric : SimilarityMetric) (r : ScoredRow) : FilteredHit :=
  { id := r.1.id
    document_id := r.1.document_id
    project_id := r.2.1.project_id
    file_path := r.2.1.file_path
    file_type := r.2.1.file_type
    chunk_index := r.1.chunk_index
    chunk_text := r.1.chunk_text
    metadata := r.1.embedding_metadata
    similarity := toSimilarity metric r.2.2
    distance := r.2.2 }

/-- Forget the extra `file_type` column of a filtered search hit. -/
def forgetFileType (h : FilteredHit) : SearchHit :=
  { id := h.id
    document_id := h.document_id
    project_id := h.project_id
    file_path := h.file_path
    chunk_index := h.chunk_index
    chunk_text := h.chunk_text
    metadata := h.metadata
    similarity := h.similarity
    distance := h.distance }

/-- `vector_search_with_filters(session, query_vector, project_id,
file_types, metadata_filters, limit, metric)` (vector_ops.py lines
197-280): select the joined rows with their distance column, apply the
`and_`-combined equality filters when at least one filter argument is
truthy, then order by distance, apply the limit and format the results.
The function performs no dimension validation on `query_vector`. -/
def vector_search_with_filters (dist : DistanceFn) (c : Corpus)
    (query_vector : List ℚ) (project_id : Option Nat)
    (file_types : Option (List String)) (metadata_filters : Option MetaMap)
    (limit : Nat) (metric : SimilarityMetric) : List FilteredHit :=
  let rows := scoredRows dist c metric query_vector
  let rows :=
    if filtersActive project_id file_types metadata_filters then
      rows.filter fun r => filterPred project_id file_types metadata_filters r.1 r.2.1
    else rows
  ((sortByKey (fun r => r.2.2) rows).take limit).map (mkFilteredHit metric)

/-- Errors surfaced by `insert_embeddings`: the `ValueError` of the
dimension check, the `IntegrityError` re-raised after rollback on a
constraint violation, and any other exception (e.g. `range()` rejecting a
zero `batch_size`). -/
inductive InsertError where
  | dimensionMismatch (got : Nat)
  | integrityError
  | other
deriving DecidableEq

/-- The session plus backing store as seen by `insert_embeddings`:
committed rows, flushed-but-uncommitted rows, the number of `commit()`
calls performed, and the id allocator. -/
structure DBState where
  committed : List Embedding
  pending : List Embedding
  commits : Nat
  nextId : Nat
deriving DecidableEq

/-- The column pair covered by the unique constraint
`uq_document_chunk (document_id, chunk_index)`. -/
def pairKey (e : Embedding) : Nat × Nat := (e.document_id, e.chunk_index)

/-- The `(document_id, chunk_index)` pair of an input record. -/
def dataPair (r : EmbeddingData) : Nat × Nat := (r.document_id, r.chunk_index)

/-- The `uq_document_chunk` unique constraint checked while rows of one
flush are inserted in order: each new pair must be absent from the rows
already in the table (committed or flushed earlier, including earlier
rows of the same flush). -/
def conflictFree (existing : List (Nat × Nat)) : List (Nat × Nat) → Bool
  | [] => true
  | p :: ps => !(decide (p ∈ existing)) && conflictFree (p :: existing) ps

/-- The ORM object built for one record (vector_ops.py lines 59-65); the
vector is stored verbatim, never truncated or padded. -/
def mkEmbedding (id : Nat) (r : EmbeddingData) : Embedding :=
  { id := id
    document_id := r.document_id
    chunk_index := r.chunk_index
    chunk_text := r.chunk_text
    embedding := r.embedding
    embedding_metadata := r.metadata }

/-- The rows a successful run builds for a record list, with ids assigned
sequentially from `id`. -/
def mkRows (id : Nat) : List EmbeddingData → List Embedding
  | [] => []
  | r :: rs => mkEmbedding id r :: mkRows (id + 1) rs

/-- The object-construction loop for one batch (lines 51-66): each
record's vector dimension is validated, in order, before any row of the
batch is flushed; the first record with `len(embedding) != 1536` raises
`ValueError` naming the offending length. -/
def buildRows (id : Nat) : List EmbeddingData → Except InsertError (List Embedding)
  | [] => .ok []
  | r :: rs =>
    if r.embedding.length ≠ 1536 then
      .error (.dimensionMismatch r.embedding.length)
    else
      match buildRows (id + 1) rs with
      | .error e => .error e
      | .ok rows => .ok (mkEmbedding id r :: rows)

/-- The sub-batches visited by
`for i in range(0, len(embeddings_data), batch_size):
   batch = embeddings_data[i : i + batch_size]` (lines 47-48). -/
def pyBatches (batch_size : Nat) (data : List EmbeddingData) :
    List (List EmbeddingData) :=
  (List.range ((data.length + batch_size - 1) / batch_size)).map fun k =>
    (data.drop (k * batch_size)).take batch_size

/-- The batch loop of `insert_embeddings` (lines 47-73): per sub-batch,
build and validate the ORM objects, flush them — where the
`uq_document_chunk` constraint is enforced against all rows already in
the table — and extend `created_ids` with the flushed ids. -/
def insertLoop (committedPairs : List (Nat × Nat)) (nextId : Nat)
    (created_ids : List Nat) (pending : List Embedding) :
    List (List EmbeddingData) → Except InsertError (List Nat × List Embedding × Nat)
  | [] => .ok (created_ids, pending, nextId)
  | batch :: rest =>
    match buildRows nextId batch with
    | .error e => .error e
    | .ok rows =>
      if conflictFree (committedPairs ++ pending.map pairKey) (rows.map pairKey) then
        insertLoop committedPairs (nextId + batch.length)
          (created_ids ++ rows.map Embedding.id) (pending ++ rows) rest
      else .error .integrityError

/-- `session.rollback()`: uncommitted rows are discarded, committed rows
are untouched. -/
def rollback (s : DBState) : DBState :=
  { committed := s.committed
    pending := []
    commits := s.commits
    nextId := s.nextId }

/-- `insert_embeddings(session, embeddings_data, batch_size)`
(vector_ops.py lines 20-92): `range` rejects a zero step; otherwise the
records are processed in sub-batches of `batch_size`, each sub-batch
validated then flushed, and a single `session.commit()` at the end of the
loop (line 75) publishes all flushed rows.  Any exception triggers
`session.rollback()` and is re-raised: `IntegrityError` is caught by its
own handler (lines 85-88) and so stays distinguishable from generic
failure. -/
def insert_embeddings (s : DBState) (embeddings_data : List EmbeddingData)
    (batch_size : Nat) : Except InsertError (List Nat) × DBState :=
  if batch_size = 0 then (.error .other, rollback s)
  else
    match insertLoop (s.committed.map pairKey) s.nextId [] s.pending
        (pyBatches batch_size embeddings_data) with
    | .ok (ids, pending, nid) =>
      (.ok ids,
       { committed := s.committed ++ pending
         pending := []
         commits := s.commits + 1
         nextId := nid })
    | .error e => (.error e, rollback s)

/-! ### Lemmas about the stable sort modelling `ORDER BY distance ASC` -/

theorem mem_insertByKey {α : Type} (key : α → ℚ) (a x : α) (l : List α) :
    x ∈ insertByKey key a l ↔ x = a ∨ x ∈ l := by
  induction l with
  | nil => simp [insertByKey]
  | cons b t ih =>
    simp only [insertByKey]
    by_cases h : key a < key b
    · simp [h, List.mem_cons]
    · simp [h, List.mem_cons, ih]
      tauto

theorem length_insertByKey {α : Type} (key : α → ℚ) (a : α) (l : List α) :
    (insertByKey key a l).length = l.length + 1 := by
  induction l with
  | nil => rfl
  | cons b t ih =>
    simp only [insertByKey]
    by_cases h : key a < key b
    · simp [h]
    · simp [h, ih]

theorem pairwise_insertByKey {α : Type} (key : α → ℚ) (a : α) (l : List α)
    (hl : l.Pairwise fun x y => key x ≤ key y) :
    (insertByKey key a l).Pairwise fun x y => key x ≤ key y := by
  induction l with
  | nil => simp [insertByKey]
  | cons b t ih =>
    rw [List.pairwise_cons] at hl
    obtain ⟨hb, ht⟩ := hl
    simp only [insertByKey]
    by_cases h : key a < key b
    · rw [if_pos h]
      refine List.Pairwise.cons ?_ (List.Pairwise.cons hb ht)
      intro y hy
      rcases List.mem_cons.mp hy with rfl | hy
      · exact le_of_lt h
      · exact le_trans (le_of_lt h) (hb y hy)
    · rw [if_neg h]
      refine List.Pairwise.cons ?_ (ih ht)
      intro y hy
      rcases (mem_insertByKey key a y t).mp hy with rfl | hy
      · exact le_of_not_lt h
      · exact hb y hy

theorem mem_sortByKey {α : Type} (key : α → ℚ) (x : α) (l : List α) :
    x ∈ sortByKey key l ↔ x ∈ l := by
  induction l with
  | nil => simp [sortByKey]
  | cons b t ih => simp [sortByKey, mem_insertByKey, ih]

theorem length_sortByKey {α : Type} (key : α → ℚ) (l : List α) :
    (sortByKey key l).length = l.length := by
  induction l with
  | nil => rfl
  | cons b t ih => simp [sortByKey, length_insertByKey, ih]

theorem pairwise_sortByKey {α : Type} (key : α → ℚ) (l : List α) :
    (sortByKey key l).Pairwise fun x y => key x ≤ key y := by
  induction l with
  | nil => simp [sortByKey]
  | cons b t ih => exact pairwise_insertByKey key b _ ih

/-! ### Lemmas about the join and the scored candidate rows -/

theorem mem_joinDocs {c : Corpus} {x : Embedding × Document} (hx : x ∈ joinDocs c) :
    x.1 ∈ c.embeddings ∧ x.2 ∈ c.documents ∧ x.2.id = x.1.document_id := by
  simp only [joinDocs, List.mem_flatMap, List.mem_map, List.mem_filter] at hx
  obtain ⟨e, he, d, ⟨hd, hid⟩, rfl⟩ := hx
  exact ⟨he, hd, by simpa using hid⟩

theorem mem_scoredRows {dist : DistanceFn} {c : Corpus} {metric : SimilarityMetric}
    {q : List ℚ} {r : ScoredRow} (hr : r ∈ scoredRows dist c metric q) :
    r.1 ∈ c.embeddings ∧ r.2.1 ∈ c.documents ∧ r.2.1.id = r.1.document_id ∧
      r.2.2 = dist metric r.1.embedding q := by
  simp only [scoredRows, List.mem_map] at hr
  obtain ⟨ed, hed, rfl⟩ := hr
  have h := mem_joinDocs hed
  exact ⟨h.1, h.2.1, h.2.2, rfl⟩

/-! ### Lemmas about batch construction, validation and the unique constraint -/

theorem mkRows_length (id : Nat) (l : List EmbeddingData) :
    (mkRows id l).length = l.length := by
  induction l generalizing id with
  | nil => rfl
  | cons r rs ih => simp [mkRows, ih]

theorem mkRows_append (id : Nat) (l₁ l₂ : List EmbeddingData) :
    mkRows id (l₁ ++ l₂) = mkRows id l₁ ++ mkRows (id + l₁.length) l₂ := by
  induction l₁ generalizing id with
  | nil => simp [mkRows]
  | cons r rs ih =>
    show mkRows id (r :: (rs ++ l₂)) = mkRows id (r :: rs) ++ mkRows (id + (r :: rs).length) l₂
    simp only [mkRows, List.length_cons, List.cons_append]
    rw [show id + (rs.length + 1) = id + 1 + rs.length by omega, ih (id + 1)]

theorem mkRows_getElem? (id : Nat) (l : List EmbeddingData) (i : Nat) :
    (mkRows id l)[i]? = l[i]?.map fun r => mkEmbedding (id + i) r := by
  induction l generalizing id i with
  | nil => simp [mkRows]
  | cons r rs ih =>
    cases i with
    | zero => simp [mkRows]
    | succ j =>
      rw [show id + (j + 1) = id + 1 + j by omega]
      simp only [mkRows, List.getElem?_cons_succ, ih (id + 1) j]

theorem mkRows_map_pairKey (id : Nat) (l : List EmbeddingData) :
    (mkRows id l).map pairKey = l.map dataPair := by
  induction l generalizing id with
  | nil => rfl
  | cons r rs ih => simp [mkRows, ih, pairKey, dataPair, mkEmbedding]

theorem buildRows_ok_of_dims (id : Nat) (l : List EmbeddingData)
    (h : ∀ r ∈ l, r.embedding.length = 1536) :
    buildRows id l = .ok (mkRows id l) := by
  induction l generalizing id with
  | nil => rfl
  | cons r rs ih =>
    have hr : r.embedding.length = 1536 := h r (by simp)
    simp only [buildRows, hr]
    rw [if_neg (by omega), ih (id + 1) fun x hx => h x (List.mem_cons_of_mem r hx)]
    rfl

theorem buildRows_ok_inv (id : Nat) (l : List EmbeddingData) (rows : List Embedding)
    (h : buildRows id l = .ok rows) :
    (∀ r ∈ l, r.embedding.length = 1536) ∧ rows = mkRows id l := by
  induction l generalizing id rows with
  | nil =>
    simp only [buildRows, Except.ok.injEq] at h
    exact ⟨by simp, by simp [mkRows, h.symm]⟩
  | cons r rs ih =>
    simp only [buildRows] at h
    by_cases hr : r.embedding.length ≠ 1536
    · rw [if_pos hr] at h
      exact absurd h (by simp)
    · rw [if_neg hr] at h
      cases hrec : buildRows (id + 1) rs with
      | error e => rw [hrec] at h; exact absurd h (by simp)
      | ok rows0 =>
        rw [hrec] at h
        simp only [Except.ok.injEq] at h
        obtain ⟨hdims, hrows⟩ := ih (id + 1) rows0 hrec
        constructor
        · intro x hx
          rcases List.mem_cons.mp hx with rfl | hx
          · omega
          · exact hdims x hx
        · rw [← h, hrows]
          rfl

theorem buildRows_error_find (id : Nat) (l : List EmbeddingData) (r : EmbeddingData)
    (h : l.find? (fun x => decide (x.embedding.length ≠ 1536)) = some r) :
    buildRows id l = .error (.dimensionMismatch r.embedding.length) := by
  induction l generalizing id with
  | nil => simp [List.find?] at h
  | cons x xs ih =>
    simp only [List.find?] at h
    cases hdx : decide (x.embedding.length ≠ 1536) with
    | true =>
      rw [hdx] at h
      simp only [Option.some.injEq] at h
      subst h
      simp only [buildRows]
      rw [if_pos (of_decide_eq_true hdx)]
    | false =>
      rw [hdx] at h
      simp only [buildRows]
      rw [if_neg (of_decide_eq_false hdx), ih (id + 1) h]

theorem conflictFree_not_mem (ps : List (Nat × Nat)) :
    ∀ existing, conflictFree existing ps = true → ∀ p ∈ ps, p ∉ existing := by
  induction ps with
  | nil => simp
  | cons q qs ih =>
    intro existing h p hp
    simp only [conflictFree, Bool.and_eq_true] at h
    obtain ⟨h1, h2⟩ := h
    rcases List.mem_cons.mp hp with rfl | hp
    · intro hmem
      simp [hmem] at h1
    · intro hmem
      exact ih (q :: existing) h2 p hp (List.mem_cons_of_mem q hmem)

theorem conflictFree_of_nodup (ps : List (Nat × Nat)) :
    ∀ existing, (existing ++ ps).Nodup → conflictFree existing ps = true := by
  induction ps with
  | nil => intro ex _; rfl
  | cons q qs ih =>
    intro ex h
    have h2 : (q :: (ex ++ qs)).Nodup := (List.perm_middle.nodup_iff).mp h
    rw [List.nodup_cons] at h2
    obtain ⟨hq, hrest⟩ := h2
    have hq2 : q ∉ ex := fun hm => hq (List.mem_append_left qs hm)
    simp only [conflictFree, Bool.and_eq_true]
    exact ⟨by simpa using hq2, ih (q :: ex) (List.nodup_cons.mpr ⟨hq, hrest⟩)⟩

/-! ### Lemmas about the batch loop of `insert_embeddings` -/

theorem insertLoop_ok (ex : List (Nat × Nat)) (L : List (List EmbeddingData)) :
    ∀ nid acc pend ids pend2 nid2,
    insertLoop ex nid acc pend L = .ok (ids, pend2, nid2) →
    ids = acc ++ (mkRows nid L.flatten).map Embedding.id ∧
    pend2 = pend ++ mkRows nid L.flatten ∧
    nid2 = nid + L.flatten.length ∧
    (∀ r ∈ L.flatten, r.embedding.length = 1536) ∧
    (∀ r ∈ L.flatten, dataPair r ∉ ex) := by
  induction L with
  | nil =>
    intro nid acc pend ids pend2 nid2 h
    simp only [insertLoop, Except.ok.injEq, Prod.mk.injEq] at h
    obtain ⟨h1, h2, h3⟩ := h
    subst h1
    subst h2
    subst h3
    simp [mkRows]
  | cons batch rest ih =>
    intro nid acc pend ids pend2 nid2 h
    cases hbr : buildRows nid batch with
    | error e0 =>
      simp [insertLoop, hbr] at h
    | ok rows =>
      simp only [insertLoop, hbr] at h
      by_cases hcf : conflictFree (ex ++ pend.map pairKey) (rows.map pairKey) = true
      · rw [if_pos hcf] at h
        obtain ⟨hids, hpend, hnid, hdims, hnc⟩ := ih _ _ _ _ _ _ h
        obtain ⟨hdims0, hrows⟩ := buildRows_ok_inv _ _ _ hbr
        subst hrows
        refine ⟨?_, ?_, ?_, ?_, ?_⟩
        · rw [hids, List.flatten_cons, mkRows_append, List.map_append, List.append_assoc]
        · rw [hpend, List.flatten_cons, mkRows_append, List.append_assoc]
        · rw [hnid, List.flatten_cons, List.length_append]
          omega
        · intro r hr
          rcases List.mem_append.mp (by simpa only [List.flatten_cons] using hr) with hr2 | hr2
          · exact hdims0 r hr2
          · exact hdims r hr2
        · intro r hr
          rcases List.mem_append.mp (by simpa only [List.flatten_cons] using hr) with hr2 | hr2
          · intro hmem
            have hp : dataPair r ∈ (mkRows nid batch).map pairKey := by
              rw [mkRows_map_pairKey]
              exact List.mem_map_of_mem dataPair hr2
            exact conflictFree_not_mem _ _ hcf _ hp (List.mem_append_left _ hmem)
          · exact hnc r hr2
      · rw [if_neg hcf] at h
        simp at h

theorem insertLoop_error_integrity (ex : List (Nat × Nat)) (L : List (List EmbeddingData)) :
    ∀ nid acc pend e,
    (∀ r ∈ L.flatten, r.embedding.length = 1536) →
    insertLoop ex nid acc pend L = .error e → e = .integrityError := by
  induction L with
  | nil =>
    intro nid acc pend e _ h
    simp [insertLoop] at h
  | cons batch rest ih =>
    intro nid acc pend e hdims h
    have hb : ∀ r ∈ batch, r.embedding.length = 1536 := fun r hr =>
      hdims r (by rw [List.flatten_cons]; exact List.mem_append_left _ hr)
    simp only [insertLoop, buildRows_ok_of_dims nid batch hb] at h
    by_cases hcf : conflictFree (ex ++ pend.map pairKey) ((mkRows nid batch).map pairKey) = true
    · rw [if_pos hcf] at h
      exact ih _ _ _ _ (fun r hr =>
        hdims r (by rw [List.flatten_cons]; exact List.mem_append_right _ hr)) h
    · rw [if_neg hcf] at h
      simp only [Except.error.injEq] at h
      exact h.symm

theorem insertLoop_error_dim (ex : List (Nat × Nat)) (L : List (List EmbeddingData)) :
    ∀ nid acc pend (r : EmbeddingData),
    ((ex ++ pend.map pairKey) ++ (L.flatten).map dataPair).Nodup →
    (L.flatten).find? (fun x => decide (x.embedding.length ≠ 1536)) = some r →
    insertLoop ex nid acc pend L = .error (.dimensionMismatch r.embedding.length) := by
  induction L with
  | nil =>
    intro nid acc pend r _ hf
    simp [List.find?] at hf
  | cons batch rest ih =>
    intro nid acc pend r hnd hf
    rw [List.flatten_cons] at hnd hf
    rw [List.find?_append] at hf
    cases hb : batch.find? (fun x => decide (x.embedding.length ≠ 1536)) with
    | some x =>
      rw [hb] at hf
      have hx : x = r := by
        simpa [Option.or] using hf
      subst hx
      simp only [insertLoop, buildRows_error_find nid batch x hb]
    | none =>
      rw [hb] at hf
      have hf2 : (rest.flatten).find? (fun x => decide (x.embedding.length ≠ 1536)) = some r := by
        simpa [Option.or] using hf
      have hdims : ∀ x ∈ batch, x.embedding.length = 1536 := by
        intro x hx
        have := List.find?_eq_none.mp hb x hx
        simpa using this
      simp only [insertLoop, buildRows_ok_of_dims nid batch hdims]
      have hcf : conflictFree (ex ++ pend.map pairKey) ((mkRows nid batch).map pairKey) = true := by
        apply conflictFree_of_nodup
        rw [mkRows_map_pairKey]
        refine List.Nodup.sublist ?_ hnd
        rw [List.map_append]
        exact (List.sublist_append_left _ _).append_left _
      rw [if_pos hcf]
      apply ih
      · rw [List.map_append, mkRows_map_pairKey]
        rw [List.map_append] at hnd
        have hperm :
            List.Perm
              ((ex ++ (pend.map pairKey ++ batch.map dataPair)) ++ (rest.flatten).map dataPair)
              ((ex ++ pend.map pairKey) ++ (batch.map dataPair ++ (rest.flatten).map dataPair)) := by
          simp only [List.append_assoc]
          exact List.Perm.refl _
        exact hperm.nodup_iff.mpr (by simpa only [List.append_assoc] using hnd)
      · exact hf2

/-! ### Lemmas about the Python batching `range(0, len, batch_size)` -/

theorem pyBatches_nil (bs : Nat) : pyBatches bs [] = [] := by
  have h : (bs - 1) / bs = 0 := by
    rcases Nat.eq_zero_or_pos bs with rfl | hb
    · simp
    · exact Nat.div_eq_of_lt (by omega)
  simp [pyBatches, h]

theorem pyBatches_cons (bs : Nat) (hbs : bs ≠ 0) (data : List EmbeddingData)
    (hd : data ≠ []) :
    pyBatches bs data = data.take bs :: pyBatches bs (data.drop bs) := by
  have hlen : 0 < data.length := List.length_pos.mpr hd
  have hbp : 0 < bs := Nat.pos_of_ne_zero hbs
  have hnum : (data.length + bs - 1) / bs = ((data.drop bs).length + bs - 1) / bs + 1 := by
    rw [List.length_drop]
    rcases le_or_lt bs data.length with hle | hlt
    · rw [show data.length - bs + bs - 1 = data.length - 1 by omega,
          show data.length + bs - 1 = data.length - 1 + bs by omega,
          Nat.add_div_right _ hbp]
    · rw [show data.length - bs = 0 by omega,
          show (0 : Nat) + bs - 1 = bs - 1 by omega,
          show data.length + bs - 1 = data.length - 1 + bs by omega,
          Nat.add_div_right _ hbp,
          Nat.div_eq_of_lt (show data.length - 1 < bs by omega),
          Nat.div_eq_of_lt (show bs - 1 < bs by omega)]
  simp only [pyBatches, hnum, List.range_succ_eq_map, List.map_cons, List.map_map]
  congr 1
  · rw [Nat.zero_mul, List.drop_zero]
  · congr 1
    funext k
    simp only [Function.comp_apply, List.length_drop]
    rw [List.drop_drop, show bs + k * bs = Nat.succ k * bs by
      rw [Nat.succ_mul]; omega]

theorem pyBatches_flatten (bs : Nat) (hbs : bs ≠ 0) (data : List EmbeddingData) :
    (pyBatches bs data).flatten = data := by
  by_cases hd : data = []
  · subst hd
    rw [pyBatches_nil]
    rfl
  · rw [pyBatches_cons bs hbs data hd, List.flatten_cons,
        pyBatches_flatten bs hbs (data.drop bs), List.take_append_drop]
termination_by data.length
decreasing_by
  have h1 : 0 < data.length := List.length_pos.mpr hd
  have h2 : 0 < bs := Nat.pos_of_ne_zero hbs
  simp only [List.length_drop]
  omega

/-! ### Characterisation of `insert_embeddings` runs -/

theorem insert_embeddings_ok (s : DBState) (data : List EmbeddingData) (bs : Nat)
    (hbs : bs ≠ 0) (ids : List Nat) (s1 : DBState)
    (h : insert_embeddings s data bs = (.ok ids, s1)) :
    ids = (mkRows s.nextId data).map Embedding.id ∧
    s1 = { committed := s.committed ++ (s.pending ++ mkRows s.nextId data)
           pending := []
           commits := s.commits + 1
           nextId := s.nextId + data.length } ∧
    (∀ r ∈ data, r.embedding.length = 1536) ∧
    (∀ r ∈ data, dataPair r ∉ s.committed.map pairKey) := by
  unfold insert_embeddings at h
  rw [if_neg hbs] at h
  cases hL : insertLoop (s.committed.map pairKey) s.nextId [] s.pending (pyBatches bs data) with
  | error e =>
    rw [hL] at h
    simp at h
  | ok out =>
    obtain ⟨ids0, pend0, nid0⟩ := out
    rw [hL] at h
    simp only [Prod.mk.injEq, Except.ok.injEq] at h
    obtain ⟨hids, hs1⟩ := h
    obtain ⟨h1, h2, h3, _, h5⟩ := insertLoop_ok _ _ _ _ _ _ _ _ hL
    obtain ⟨_, _, _, h4, _⟩ := insertLoop_ok _ _ _ _ _ _ _ _ hL
    rw [pyBatches_flatten bs hbs data] at h1 h2 h3 h4 h5
    subst hids
    refine ⟨by simpa using h1, ?_, h4, h5⟩
    rw [← hs1, h2, h3]

theorem insert_embeddings_error (s : DBState) (data : List EmbeddingData) (bs : Nat)
    (e : InsertError) (s1 : DBState)
    (h : insert_embeddings s data bs = (.error e, s1)) : s1 = rollback s := by
  unfold insert_embeddings at h
  by_cases hbs : bs = 0
  · rw [if_pos hbs] at h
    simp only [Prod.mk.injEq] at h
    exact h.2.symm
  · rw [if_neg hbs] at h
    cases hL : insertLoop (s.committed.map pairKey) s.nextId [] s.pending (pyBatches bs data) with
    | error e0 =>
      rw [hL] at h
      simp only [Prod.mk.injEq] at h
      exact h.2.symm
    | ok out =>
      obtain ⟨ids0, pend0, nid0⟩ := out
      rw [hL] at h
      simp at h

/-! ### Concrete fixtures used by witnesses and counterexamples -/

set_option maxRecDepth 8000

/-- A one-document corpus entry. -/
def doc0 : Document :=
  { id := 0
    project_id := 7
    file_path := "a.py"
    file_type := "python" }

/-- One stored embedding of `doc0`. -/
def emb0 : Embedding :=
  { id := 0
    document_id := 0
    chunk_index := 0
    chunk_text := "chunk"
    embedding := List.replicate 1536 0
    embedding_metadata := some [("language", "python")] }

/-- A corpus with one document and one embedding. -/
def corpus0 : Corpus := { documents := [doc0], embeddings := [emb0] }

/-- A distance operator that scores every pair at distance 1 (so cosine
similarity 1 - 1 = 0). -/
def constDist : DistanceFn := fun _ _ _ => 1

/-- A valid 1536-component query vector. -/
def q0 : List ℚ := List.replicate 1536 0

/-- The hit `similarity_search` produces for `emb0` under `constDist`. -/
def hit0 : SearchHit :=
  { id := 0
    document_id := 0
    project_id := 7
    file_path := "a.py"
    chunk_index := 0
    chunk_text := "chunk"
    metadata := some [("language", "python")]
    similarity := 1 - 1
    distance := 1 }

/-- The hit `vector_search_with_filters` produces for `emb0` under
`constDist`. -/
def fhit0 : FilteredHit :=
  { id := 0
    document_id := 0
    project_id := 7
    file_path := "a.py"
    file_type := "python"
    chunk_index := 0
    chunk_text := "chunk"
    metadata := some [("language", "python")]
    similarity := 1 - 1
    distance := 1 }

/-- A valid input record for document 0, chunk 0. -/
def recA : EmbeddingData :=
  { document_id := 0
    chunk_index := 0
    chunk_text := "a"
    embedding := List.replicate 1536 0
    metadata := none }

/-- A valid input record for document 0, chunk 1. -/
def recB : EmbeddingData :=
  { document_id := 0
    chunk_index := 1
    chunk_text := "b"
    embedding := List.replicate 1536 0
    metadata := none }

/-- An input record whose vector has only 3 components. -/
def recBad : EmbeddingData :=
  { document_id := 0
    chunk_index := 2
    chunk_text := "c"
    embedding := [0, 0, 0]
    metadata := none }

/-- A fresh session over an empty store. -/
def s0 : DBState := { committed := [], pending := [], commits := 0, nextId := 0 }

/-! ### Claim theorems -/

/-- C10: passing `similarity_threshold = 0` to `similarity_search` behaves
identically to passing no threshold at all: the code tests the threshold's
Python truthiness (`if similarity_threshold:`), not whether it is `None`,
so a zero threshold adds no WHERE clause and filters out nothing. -/
theorem C10_zero_threshold_behaves_as_none (dist : DistanceFn) (c : Corpus)
    (q : List ℚ) (limit : Nat) (metric : SimilarityMetric) :
    similarity_search dist c q limit metric (some 0) =
      similarity_search dist c q limit metric none := by
  unfold similarity_search
  simp

/-- C1: the claim fails on the code and the code contradicts its own
docstring (`similarity_threshold: Optional minimum similarity score`):
the generated WHERE clause compares the raw distance, not the similarity,
against the threshold.  Concretely: the only stored embedding sits at
cosine distance 1, so the best available similarity is `1 - 1 = 0`; with
threshold `2`, which is strictly above that best similarity, the search
is claimed to return an empty list, yet the code returns the row — whose
similarity `1 - 1` is below the threshold. -/
theorem C1_threshold_compares_distance_code_eval :
    similarity_search constDist corpus0 q0 10 .cosine (some 2) = .ok [hit0] ∧
    hit0.similarity < 2 ∧ toSimilarity .cosine 1 < 2 :=
  ⟨by rfl, by norm_num [hit0], by norm_num [toSimilarity]⟩

/-- C2 counterexample: `vector_search_with_filters` performs no dimension
validation: a 3-component query vector is not rejected — the query is
issued and a (nonempty) result list is returned. -/
theorem C2_filtered_search_skips_validation_counterexample :
    (([(0 : ℚ), 0, 0]).length ≠ 1536) ∧
    vector_search_with_filters constDist corpus0 [0, 0, 0] none none none 10 .cosine
      = [fhit0] :=
  ⟨by decide, by rfl⟩

/-- C2 (amended): plain `similarity_search` rejects a query vector whose
length is not 1536 with a dimension-mismatch error identifying the
offending length, before any query reaches storage; the filtered search
performs no such client-side validation (see the counterexample). -/
theorem C2_similarity_search_validates_dimension (dist : DistanceFn) (c : Corpus)
    (q : List ℚ) (limit : Nat) (metric : SimilarityMetric) (thr : Option ℚ)
    (hq : q.length ≠ 1536) :
    similarity_search dist c q limit metric thr = .error (.invalidDimension q.length) := by
  unfold similarity_search
  rw [if_pos hq]

/-- Witness for C2 (amended) at the 3-component query vector. -/
theorem C2_similarity_search_validates_dimension_witness :
    (([(0 : ℚ), 0, 0]).length ≠ 1536) ∧
    similarity_search constDist corpus0 [0, 0, 0] 10 .cosine none
      = .error (.invalidDimension 3) :=
  ⟨by decide,
   C2_similarity_search_validates_dimension constDist corpus0 [0, 0, 0] 10 .cosine none
     (by decide)⟩

/-- C3 counterexample: with `batch_size = 1`, two records form two
sub-batches, yet a successful call performs exactly one commit — not one
commit per sub-batch; and when the second sub-batch fails (duplicate
`(document_id, chunk_index)` pair), the first sub-batch does **not**
remain committed: the whole call is rolled back. -/
theorem C3_single_commit_counterexample :
    (insert_embeddings s0 [recA, recB] 1).2.commits = 1 ∧
    (insert_embeddings s0 [recA, recA] 1).1 = .error .integrityError ∧
    (insert_embeddings s0 [recA, recA] 1).2.committed = [] :=
  ⟨by rfl, by rfl, by rfl⟩

/-- C3 (amended): records are grouped into sub-batches of `batch_size`
and flushed to storage sub-batch by sub-batch in submission order, but a
single transaction covers the whole call: a successful call performs
exactly one commit, at the end, after which the new rows sit after the
previously pending rows in input order; a failure anywhere rolls back
every sub-batch of the call. -/
theorem C3_chunked_flush_single_commit (s : DBState) (data : List EmbeddingData)
    (bs : Nat) (hbs : bs ≠ 0) :
    (∀ ids s1, insert_embeddings s data bs = (.ok ids, s1) →
      s1.commits = s.commits + 1 ∧
      s1.committed = s.committed ++ (s.pending ++ mkRows s.nextId data)) ∧
    (∀ e s1, insert_embeddings s data bs = (.error e, s1) → s1 = rollback s) := by
  constructor
  · intro ids s1 h
    obtain ⟨-, hs1, -, -⟩ := insert_embeddings_ok s data bs hbs ids s1 h
    rw [hs1]
    exact ⟨rfl, rfl⟩
  · intro e s1 h
    exact insert_embeddings_error s data bs e s1 h

/-- Witness for C3 (amended) at a concrete two-record run. -/
theorem C3_chunked_flush_single_commit_witness :
    ((1 : Nat) ≠ 0) ∧
    ((∀ ids s1, insert_embeddings s0 [recA, recB] 1 = (.ok ids, s1) →
      s1.commits = s0.commits + 1 ∧
      s1.committed = s0.committed ++ (s0.pending ++ mkRows s0.nextId [recA, recB])) ∧
    (∀ e s1, insert_embeddings s0 [recA, recB] 1 = (.error e, s1) → s1 = rollback s0)) :=
  ⟨by decide, C3_chunked_flush_single_commit s0 [recA, recB] 1 (by decide)⟩

/-- C4 counterexample: an input containing a record with a wrong-length
vector need not fail with the dimension-mismatch error: here the second
sub-batch violates the uniqueness constraint before validation ever
reaches the bad record, so the call fails with the conflict error
instead. -/
theorem C4_earlier_conflict_masks_dimension_counterexample :
    recBad.embedding.length = 3 ∧
    (insert_embeddings s0 [recA, recA, recBad] 1).1 = .error .integrityError ∧
    InsertError.integrityError ≠ .dimensionMismatch 3 :=
  ⟨by decide, by rfl, by decide⟩

/-- C4 (amended): for every input containing a record whose vector length
is not 1536 the call never succeeds, the session ends rolled back with
the committed rows unchanged (so no row of any batch is committed, and no
vector is ever truncated or padded — rows only ever carry a record's
vector verbatim); the error is the dimension-mismatch `ValueError`
identifying the first offending record's length provided no uniqueness
conflict fires first — in particular whenever the session starts with no
pending rows and the committed pairs together with the input pairs are
collision-free. -/
theorem C4_dimension_error_aborts (s : DBState) (data : List EmbeddingData)
    (bs : Nat) (hbs : bs ≠ 0) (bad : EmbeddingData) (hmem : bad ∈ data)
    (hbad : bad.embedding.length ≠ 1536) :
    (∀ ids s1, insert_embeddings s data bs ≠ (.ok ids, s1)) ∧
    (insert_embeddings s data bs).2 = rollback s ∧
    (∀ r0, s.pending = [] →
      (s.committed.map pairKey ++ data.map dataPair).Nodup →
      data.find? (fun x => decide (x.embedding.length ≠ 1536)) = some r0 →
      (insert_embeddings s data bs).1 = .error (.dimensionMismatch r0.embedding.length)) := by
  refine ⟨?_, ?_, ?_⟩
  · intro ids s1 h
    obtain ⟨-, -, hdims, -⟩ := insert_embeddings_ok s data bs hbs ids s1 h
    exact hbad (hdims bad hmem)
  · rcases hE : insert_embeddings s data bs with ⟨res, s1⟩
    cases res with
    | ok ids =>
      obtain ⟨-, -, hdims, -⟩ := insert_embeddings_ok s data bs hbs ids s1 hE
      exact absurd (hdims bad hmem) hbad
    | error e =>
      exact insert_embeddings_error s data bs e s1 hE
  · intro r0 hpend hnodup hfind
    have hloop : insertLoop (s.committed.map pairKey) s.nextId [] s.pending
        (pyBatches bs data) = .error (.dimensionMismatch r0.embedding.length) := by
      apply insertLoop_error_dim
      · rw [hpend, pyBatches_flatten bs hbs data]
        simpa using hnodup
      · rw [pyBatches_flatten bs hbs data]
        exact hfind
    unfold insert_embeddings
    rw [if_neg hbs]
    simp only [hloop]

/-- Witness for C4 (amended): a clean session, a conflict-free input whose
second record has a 3-component vector. -/
theorem C4_dimension_error_aborts_witness :
    ((1 : Nat) ≠ 0) ∧ recBad ∈ [recA, recBad] ∧ recBad.embedding.length ≠ 1536 ∧
    ((∀ ids s1, insert_embeddings s0 [recA, recBad] 1 ≠ (.ok ids, s1)) ∧
    (insert_embeddings s0 [recA, recBad] 1).2 = rollback s0 ∧
    (∀ r0, s0.pending = [] →
      (s0.committed.map pairKey ++ ([recA, recBad]).map dataPair).Nodup →
      ([recA, recBad]).find? (fun x => decide (x.embedding.length ≠ 1536)) = some r0 →
      (insert_embeddings s0 [recA, recBad] 1).1 = .error (.dimensionMismatch r0.embedding.length))) :=
  ⟨by decide, by decide, by decide,
   C4_dimension_error_aborts s0 [recA, recBad] 1 (by decide) recBad (by decide) (by decide)⟩

/-- C5: a successful `insert_embeddings` call over N records and a
positive `batch_size` returns exactly N created identifiers in original
input order across all sub-batches: the i-th identifier is the identifier
of the row `mkEmbedding (s.nextId + i) (data[i])` created for the i-th
input record, and exactly those rows are appended to the committed rows
in the same order. -/
theorem C5_ids_in_input_order (s : DBState) (data : List EmbeddingData)
    (bs : Nat) (hbs : bs ≠ 0) (ids : List Nat) (s1 : DBState)
    (h : insert_embeddings s data bs = (.ok ids, s1)) :
    ids.length = data.length ∧
    s1.committed = s.committed ++ (s.pending ++ mkRows s.nextId data) ∧
    (∀ i : Nat, ids[i]? = ((mkRows s.nextId data)[i]?).map Embedding.id) ∧
    (∀ i : Nat, (mkRows s.nextId data)[i]? =
      (data[i]?).map fun r => mkEmbedding (s.nextId + i) r) := by
  obtain ⟨hids, hs1, -, -⟩ := insert_embeddings_ok s data bs hbs ids s1 h
  subst hids
  refine ⟨by simp [mkRows_length], by rw [hs1], ?_, ?_⟩
  · intro i
    exact List.getElem?_map _ _ _
  · intro i
    exact mkRows_getElem? s.nextId data i

/-- The state a successful two-record run of `insert_embeddings` leaves. -/
def s1c : DBState :=
  { committed := [mkEmbedding 0 recA, mkEmbedding 1 recB]
    pending := []
    commits := 1
    nextId := 2 }

/-- Witness for C5 at a concrete two-record run with `batch_size = 2`. -/
theorem C5_ids_in_input_order_witness :
    ((2 : Nat) ≠ 0) ∧
    insert_embeddings s0 [recA, recB] 2 = (.ok [0, 1], s1c) ∧
    (([0, 1] : List Nat).length = ([recA, recB]).length ∧
    s1c.committed = s0.committed ++ (s0.pending ++ mkRows s0.nextId [recA, recB]) ∧
    (∀ i : Nat, ([0, 1] : List Nat)[i]? = ((mkRows s0.nextId [recA, recB])[i]?).map Embedding.id) ∧
    (∀ i : Nat, (mkRows s0.nextId [recA, recB])[i]? =
      (([recA, recB])[i]?).map fun r => mkEmbedding (s0.nextId + i) r)) :=
  ⟨by decide, by rfl,
   C5_ids_in_input_order s0 [recA, recB] 2 (by decide) [0, 1] s1c (by rfl)⟩

/-- C7: inserting a record whose `(document_id, chunk_index)` pair already
exists among the committed rows fails with the structured conflict error
— `IntegrityError`, distinguishable by constructor both from the
dimension `ValueError` and from generic failure — the transaction is
rolled back, and the previously committed rows, in particular the
original conflicting row, are unchanged. -/
theorem C7_duplicate_pair_conflict (s : DBState) (data : List EmbeddingData)
    (bs : Nat) (hbs : bs ≠ 0) (r : EmbeddingData) (hr : r ∈ data)
    (hdims : ∀ x ∈ data, x.embedding.length = 1536)
    (hdup : dataPair r ∈ s.committed.map pairKey) :
    insert_embeddings s data bs = (.error .integrityError, rollback s) ∧
    (rollback s).committed = s.committed ∧
    InsertError.integrityError ≠ .other ∧
    (∀ got, InsertError.integrityError ≠ .dimensionMismatch got) := by
  have key : insert_embeddings s data bs = (.error .integrityError, rollback s) := by
    unfold insert_embeddings
    rw [if_neg hbs]
    cases hL : insertLoop (s.committed.map pairKey) s.nextId [] s.pending
        (pyBatches bs data) with
    | ok out =>
      obtain ⟨ids0, pend0, nid0⟩ := out
      obtain ⟨-, -, -, -, hnc⟩ := insertLoop_ok _ _ _ _ _ _ _ _ hL
      rw [pyBatches_flatten bs hbs data] at hnc
      exact absurd hdup (hnc r hr)
    | error e =>
      have he : e = .integrityError :=
        insertLoop_error_integrity (s.committed.map pairKey) (pyBatches bs data)
          s.nextId [] s.pending e
          (by rw [pyBatches_flatten bs hbs data]; exact hdims) hL
      subst he
      simp only [hL]
  exact ⟨key, rfl, by decide, fun got h => InsertError.noConfusion h⟩

/-- Witness for C7: the committed store already holds chunk `(0, 0)` and
the input re-inserts that pair. -/
theorem C7_duplicate_pair_conflict_witness :
    ((1 : Nat) ≠ 0) ∧ recA ∈ [recA] ∧
    (∀ x ∈ [recA], x.embedding.length = 1536) ∧
    dataPair recA ∈ (s1c.committed.map pairKey) ∧
    (insert_embeddings s1c [recA] 1 = (.error .integrityError, rollback s1c) ∧
    (rollback s1c).committed = s1c.committed ∧
    InsertError.integrityError ≠ .other ∧
    (∀ got, InsertError.integrityError ≠ .dimensionMismatch got)) :=
  ⟨by decide, List.mem_cons_self recA [], by decide, by decide,
   C7_duplicate_pair_conflict s1c [recA] 1 (by decide) recA
     (List.mem_cons_self recA []) (by decide) (by decide)⟩

/-- The successful branch of `similarity_search` in explicit form. -/
theorem similarity_search_ok_form (dist : DistanceFn) (c : Corpus) (q : List ℚ)
    (limit : Nat) (metric : SimilarityMetric) (thr : Option ℚ)
    (hq : q.length = 1536) :
    similarity_search dist c q limit metric thr =
      .ok (((sortByKey (fun r => r.2.2)
        (match thr with
         | none => scoredRows dist c metric q
         | some t =>
           if t ≠ 0 then (scoredRows dist c metric q).filter (fun r => r.2.2 < t)
           else scoredRows dist c metric q)).take limit).map (mkSearchHit metric)) := by
  unfold similarity_search
  rw [if_neg (by omega)]

/-- Whatever the threshold clause keeps is among the scored candidates. -/
theorem thresholdRows_subset (rows : List ScoredRow) (thr : Option ℚ) :
    (match thr with
     | none => rows
     | some t =>
       if t ≠ 0 then rows.filter (fun r => r.2.2 < t) else rows) ⊆ rows := by
  rcases thr with _ | t
  · exact fun _ h => h
  · show (if t ≠ 0 then rows.filter (fun r => r.2.2 < t) else rows) ⊆ rows
    by_cases ht : t ≠ 0
    · rw [if_pos ht]
      exact fun x hx => (List.mem_filter.mp hx).1
    · rw [if_neg ht]
      exact fun _ h => h

/-- When every filter argument is Python-falsy, the combined filter
predicate accepts every row. -/
theorem filterPred_of_inactive (pid : Option Nat) (fts : Option (List String))
    (mfs : Option MetaMap) (hA : filtersActive pid fts mfs = false)
    (e : Embedding) (d : Document) : filterPred pid fts mfs e d = true := by
  simp only [filtersActive, Bool.or_eq_false_iff] at hA
  obtain ⟨⟨h1, h2⟩, h3⟩ := hA
  rcases pid with _ | p
  · rcases fts with _ | l
    · rcases mfs with _ | m
      · rfl
      · have hm : m.isEmpty = true := by
          simpa [metadataFiltersActive] using h3
        simp [filterPred, hm]
    · have hl : l.isEmpty = true := by
        simpa [fileTypesActive] using h2
      rcases mfs with _ | m
      · simp [filterPred, hl]
      · have hm : m.isEmpty = true := by
          simpa [metadataFiltersActive] using h3
        simp [filterPred, hl, hm]
  · simp [projectFilterActive] at h1

/-- C6: in both `similarity_search` and `vector_search_with_filters`,
every returned row's similarity is computed from its distance by exactly
`similarity = 1 - distance` for the cosine metric and
`similarity = 1 / (1 + distance)` for the l2 metric; the l2 transform is
strictly decreasing and lies in `(0, 1]` for nonnegative distance. -/
theorem C6_similarity_transform (dist : DistanceFn) (c : Corpus) (q : List ℚ)
    (limit : Nat) (metric : SimilarityMetric) (thr : Option ℚ)
    (pid : Option Nat) (fts : Option (List String)) (mfs : Option MetaMap)
    (hits : List SearchHit)
    (hok : similarity_search dist c q limit metric thr = .ok hits) :
    (∀ h ∈ hits, h.similarity = toSimilarity metric h.distance) ∧
    (∀ h ∈ vector_search_with_filters dist c q pid fts mfs limit metric,
      h.similarity = toSimilarity metric h.distance) ∧
    (∀ d : ℚ, toSimilarity .cosine d = 1 - d) ∧
    (∀ d : ℚ, toSimilarity .l2 d = 1 / (1 + d)) ∧
    (∀ d1 d2 : ℚ, 0 ≤ d1 → d1 < d2 → toSimilarity .l2 d2 < toSimilarity .l2 d1) ∧
    (∀ d : ℚ, 0 ≤ d → 0 < toSimilarity .l2 d ∧ toSimilarity .l2 d ≤ 1) := by
  refine ⟨?_, ?_, fun d => rfl, fun d => rfl, ?_, ?_⟩
  · intro h hm
    by_cases hq : q.length ≠ 1536
    · unfold similarity_search at hok
      rw [if_pos hq] at hok
      exact absurd hok (by simp)
    · rw [similarity_search_ok_form dist c q limit metric thr (not_not.mp hq)] at hok
      simp only [Except.ok.injEq] at hok
      subst hok
      obtain ⟨r, -, rfl⟩ := List.mem_map.mp hm
      rfl
  · intro h hm
    unfold vector_search_with_filters at hm
    obtain ⟨r, -, rfl⟩ := List.mem_map.mp hm
    rfl
  · intro d1 d2 h0 hlt
    simp only [toSimilarity]
    exact one_div_lt_one_div_of_lt (by linarith) (by linarith)
  · intro d h0
    simp only [toSimilarity]
    constructor
    · exact div_pos one_pos (by linarith)
    · rw [div_le_one (by linarith)]
      linarith

/-- Witness for C6 at a one-row corpus under the cosine metric. -/
theorem C6_similarity_transform_witness :
    (similarity_search constDist corpus0 q0 3 .cosine none = .ok [hit0]) ∧
    ((∀ h ∈ [hit0], h.similarity = toSimilarity .cosine h.distance) ∧
    (∀ h ∈ vector_search_with_filters constDist corpus0 q0 none none none 3 .cosine,
      h.similarity = toSimilarity .cosine h.distance) ∧
    (∀ d : ℚ, toSimilarity .cosine d = 1 - d) ∧
    (∀ d : ℚ, toSimilarity .l2 d = 1 / (1 + d)) ∧
    (∀ d1 d2 : ℚ, 0 ≤ d1 → d1 < d2 → toSimilarity .l2 d2 < toSimilarity .l2 d1) ∧
    (∀ d : ℚ, 0 ≤ d → 0 < toSimilarity .l2 d ∧ toSimilarity .l2 d ≤ 1)) :=
  ⟨by rfl,
   C6_similarity_transform constDist corpus0 q0 3 .cosine none none none none [hit0]
     (by rfl)⟩

/-- C9: for every corpus, valid (1536-component) query vector and limit,
`similarity_search` succeeds and returns at most `limit` rows, ordered by
nondecreasing distance; each row is the formatted image of a stored
embedding joined to its owning document, so it carries that document's
`file_path` and `project_id`. -/
theorem C9_ranked_limited_results (dist : DistanceFn) (c : Corpus) (q : List ℚ)
    (limit : Nat) (metric : SimilarityMetric) (thr : Option ℚ)
    (hq : q.length = 1536) :
    ∃ hits, similarity_search dist c q limit metric thr = .ok hits ∧
      hits.length ≤ limit ∧
      hits.Pairwise (fun a b => a.distance ≤ b.distance) ∧
      ∀ h ∈ hits, ∃ e d, e ∈ c.embeddings ∧ d ∈ c.documents ∧
        d.id = e.document_id ∧
        h = mkSearchHit metric (e, d, dist metric e.embedding q) ∧
        h.file_path = d.file_path ∧ h.project_id = d.project_id := by
  rw [similarity_search_ok_form dist c q limit metric thr hq]
  refine ⟨_, rfl, ?_, ?_, ?_⟩
  · rw [List.length_map]
    exact List.length_take_le _ _
  · rw [List.pairwise_map]
    exact (pairwise_sortByKey _ _).sublist (List.take_sublist _ _)
  · intro h hm
    obtain ⟨r, hr, rfl⟩ := List.mem_map.mp hm
    have hr2 := List.take_subset _ _ hr
    have hr3 := (mem_sortByKey _ _ _).mp hr2
    have hr4 := thresholdRows_subset (scoredRows dist c metric q) thr hr3
    obtain ⟨he, hd, hid, hdist⟩ := mem_scoredRows hr4
    refine ⟨r.1, r.2.1, he, hd, hid, ?_, rfl, rfl⟩
    rw [← hdist]

/-- Witness for C9 at a one-row corpus. -/
theorem C9_ranked_limited_results_witness :
    (q0.length = 1536) ∧
    (∃ hits, similarity_search constDist corpus0 q0 10 .cosine none = .ok hits ∧
      hits.length ≤ 10 ∧
      hits.Pairwise (fun a b => a.distance ≤ b.distance) ∧
      ∀ h ∈ hits, ∃ e d, e ∈ corpus0.embeddings ∧ d ∈ corpus0.documents ∧
        d.id = e.document_id ∧
        h = mkSearchHit .cosine (e, d, constDist .cosine e.embedding q0) ∧
        h.file_path = d.file_path ∧ h.project_id = d.project_id) :=
  ⟨by decide, C9_ranked_limited_results constDist corpus0 q0 10 .cosine none (by decide)⟩

/-- C8: the filtered search combines the project, file-type and metadata
filters with logical AND — every returned row satisfies every supplied
(Python-truthy) filter; the filters are applied inside the ranked query,
pre-filtering the candidate set, so the result length is
`min limit (number of matching candidates)` and a filtered-out majority
cannot starve the result below `limit`; and with no filters supplied the
filtered search returns exactly the plain no-threshold
`similarity_search` result over the same corpus, query, metric and
limit, modulo the extra `file_type` column. -/
theorem C8_filters_and_degradation (dist : DistanceFn) (c : Corpus) (q : List ℚ)
    (pid : Option Nat) (fts : Option (List String)) (mfs : Option MetaMap)
    (limit : Nat) (metric : SimilarityMetric) :
    (∀ h ∈ vector_search_with_filters dist c q pid fts mfs limit metric,
      (∀ p, pid = some p → h.project_id = p) ∧
      (∀ l, fts = some l → l ≠ [] → h.file_type ∈ l) ∧
      (∀ m, mfs = some m → ∀ kv ∈ m, metaLookup h.metadata kv.1 = some kv.2)) ∧
    ((vector_search_with_filters dist c q pid fts mfs limit metric).length =
      min limit ((scoredRows dist c metric q).filter
        (fun r => filterPred pid fts mfs r.1 r.2.1)).length) ∧
    (q.length = 1536 →
      similarity_search dist c q limit metric none =
        .ok ((vector_search_with_filters dist c q none none none limit metric).map
          forgetFileType)) := by
  refine ⟨?_, ?_, ?_⟩
  · intro h hm
    by_cases hA : filtersActive pid fts mfs = true
    · simp only [vector_search_with_filters] at hm
      rw [if_pos hA] at hm
      obtain ⟨r, hr, rfl⟩ := List.mem_map.mp hm
      have hr2 := (mem_sortByKey _ _ _).mp (List.take_subset _ _ hr)
      have hpred := (List.mem_filter.mp hr2).2
      simp only [filterPred, Bool.and_eq_true] at hpred
      obtain ⟨⟨hp1, hp2⟩, hp3⟩ := hpred
      refine ⟨?_, ?_, ?_⟩
      · intro p hpid
        subst hpid
        have hp1b : (r.2.1.project_id == p) = true := hp1
        exact beq_iff_eq.mp hp1b
      · intro l hfts hlne
        subst hfts
        have hle : l.isEmpty = false := by
          cases l
          · exact absurd rfl hlne
          · rfl
        have hp2b : (if l.isEmpty = true then true
            else l.contains r.2.1.file_type) = true := hp2
        rw [hle] at hp2b
        simp only [Bool.false_eq_true, if_false] at hp2b
        exact List.elem_iff.mp hp2b
      · intro m hmfs kv hkv
        subst hmfs
        have hme : m.isEmpty = false := by
          cases m
          · simp at hkv
          · rfl
        have hp3b : (if m.isEmpty = true then true
            else m.all fun kv => metaLookup r.1.embedding_metadata kv.1 == some kv.2) = true := hp3
        rw [hme] at hp3b
        simp only [Bool.false_eq_true, if_false] at hp3b
        have hall := List.all_eq_true.mp hp3b kv hkv
        exact beq_iff_eq.mp hall
    · have hA2 : filtersActive pid fts mfs = false := by
        cases hfa : filtersActive pid fts mfs
        · rfl
        · exact absurd hfa hA
      simp only [filtersActive, Bool.or_eq_false_iff] at hA2
      obtain ⟨⟨h1, h2⟩, h3⟩ := hA2
      refine ⟨?_, ?_, ?_⟩
      · intro p hpid
        subst hpid
        simp [projectFilterActive] at h1
      · intro l hfts hlne
        subst hfts
        have hle : l.isEmpty = true := by
          simpa [fileTypesActive] using h2
        cases l
        · exact absurd rfl hlne
        · simp [List.isEmpty] at hle
      · intro m hmfs kv hkv
        subst hmfs
        have hme : m.isEmpty = true := by
          simpa [metadataFiltersActive] using h3
        cases m
        · simp at hkv
        · simp [List.isEmpty] at hme
  · simp only [vector_search_with_filters]
    by_cases hA : filtersActive pid fts mfs = true
    · rw [if_pos hA, List.length_map, List.length_take, length_sortByKey]
    · rw [if_neg hA, List.length_map, List.length_take, length_sortByKey]
      have hA2 : filtersActive pid fts mfs = false := by
        cases hfa : filtersActive pid fts mfs
        · rfl
        · exact absurd hfa hA
      rw [List.filter_eq_self.mpr
        (fun r _ => filterPred_of_inactive pid fts mfs hA2 r.1 r.2.1)]
  · intro hq
    rw [similarity_search_ok_form dist c q limit metric none hq]
    simp only [vector_search_with_filters]
    rw [if_neg (show ¬filtersActive none none none = true by decide), List.map_map]
    rfl

/-- Witness for C8 with all three filters supplied and truthy. -/
theorem C8_filters_and_degradation_witness :
    (∀ h ∈ vector_search_with_filters constDist corpus0 q0 (some 7) (some ["python"])
        (some [("language", "python")]) 10 .cosine,
      (∀ p, (some 7 : Option Nat) = some p → h.project_id = p) ∧
      (∀ l, (some ["python"] : Option (List String)) = some l → l ≠ [] → h.file_type ∈ l) ∧
      (∀ m, (some [("language", "python")] : Option MetaMap) = some m →
        ∀ kv ∈ m, metaLookup h.metadata kv.1 = some kv.2)) ∧
    ((vector_search_with_filters constDist corpus0 q0 (some 7) (some ["python"])
        (some [("language", "python")]) 10 .cosine).length =
      min 10 ((scoredRows constDist corpus0 .cosine q0).filter
        (fun r => filterPred (some 7) (some ["python"]) (some [("language", "python")])
          r.1 r.2.1)).length) ∧
    (q0.length = 1536 →
      similarity_search constDist corpus0 q0 10 .cosine none =
        .ok ((vector_search_with_filters constDist corpus0 q0 none none none 10 .cosine).map
          forgetFileType)) :=
  C8_filters_and_degradation constDist corpus0 q0 (some 7) (some ["python"])
    (some [("language", "python")]) 10 .cosine

end VectorOps
